import Mathlib

/-!
Verification development for stopwatch-go (src/stopwatch.go), a manual
event-timestamp recorder.  The Go program collects timestamped events in a
select-loop (`collect`), converts them to CSV records (`EventsToRecords`,
`Event.Row`, `GetEventColumnNames`), and writes them to a destination
(`MarshallEventsCSV`, `DumpCSV`, `main`).

The embedding below is shallow:
* `time.Time` values are modelled as broken-down civil times (`Time`), and
  `Format(time.RFC3339Nano)` is modelled by `formatRFC3339Nano`, following
  Go's layout "2006-01-02T15:04:05.999999999Z07:00" (fractional second with
  trailing zeros trimmed and omitted entirely when zero; "Z" for a zero UTC
  offset, signed "hh:mm" otherwise).
* the Go `encoding/csv` writer (default settings: comma separator,
  `UseCRLF = false`) is modelled by `csvWriteAll`, including its field
  quoting rules (`fieldNeedsQuotes`).
* an `io.Writer` sink is modelled as the string of bytes written so far;
  `MarshallEventsCSV` takes the bytes already on the sink and returns the
  sink after writing.
* the file system and process effects of `DumpCSV` and of the reporting tail
  of `main` are modelled by `World` (file contents, per-path writability,
  stdout) plus an exit code and an optional stderr diagnostic.
* the `collect` select-loop is modelled on a schedule: the list of outcomes
  of the `select` statement, each step being either a tick delivery or a
  context-done (termination) delivery.  Signals after the first done are
  never observed by the loop, which models deliveries that happen after the
  wait-loop has exited.  Wall-clock reads (`time.Now()`) are modelled by a
  clock indexed by the value of the event counter at the append.
-/

namespace Stopwatch

/-- A broken-down civil time with nanoseconds and a UTC offset in minutes,
modelling the observable fields of a Go `time.Time` as used by
`Format(time.RFC3339Nano)`. -/
structure Time where
  year : Nat
  month : Nat
  day : Nat
  hour : Nat
  minute : Nat
  second : Nat
  nanos : Nat
  offMinutes : Int
deriving DecidableEq, Repr

/-- The decimal digit character for `n % 10`-style arguments (`n ≤ 9`). -/
def digitChar (n : Nat) : Char := Char.ofNat (48 + n)

/-- Zero-padded two-digit decimal rendering (Go format verbs `01`, `02`,
`15`, `04`, `05`), as characters. -/
def pad2 (n : Nat) : List Char := [digitChar (n / 10 % 10), digitChar (n % 10)]

/-- Zero-padded four-digit decimal rendering (Go format verb `2006`), as
characters. -/
def pad4 (n : Nat) : List Char :=
  [digitChar (n / 1000 % 10), digitChar (n / 100 % 10),
   digitChar (n / 10 % 10), digitChar (n % 10)]

/-- The nine decimal digits of a nanosecond count, most significant first. -/
def nineDigits (n : Nat) : List Char :=
  [digitChar (n / 100000000 % 10), digitChar (n / 10000000 % 10),
   digitChar (n / 1000000 % 10), digitChar (n / 100000 % 10),
   digitChar (n / 10000 % 10), digitChar (n / 1000 % 10),
   digitChar (n / 100 % 10), digitChar (n / 10 % 10), digitChar (n % 10)]

/-- Remove trailing `0` characters (Go fractional-second verb `.999999999`
trims trailing zeros). -/
def dropTrailingZeros (l : List Char) : List Char :=
  (l.reverse.dropWhile (fun c => c = '0')).reverse

/-- The fractional-second part of Go layout `.999999999`: empty when the
nanosecond count is zero, otherwise a dot followed by the digits with
trailing zeros trimmed. -/
def fracChars (nanos : Nat) : List Char :=
  if nanos = 0 then [] else '.' :: dropTrailingZeros (nineDigits nanos)

/-- The zone part of Go layout `Z07:00`: the single character Z for a zero
offset, otherwise a sign and zero-padded hours and minutes. -/
def offsetChars (offMinutes : Int) : List Char :=
  if offMinutes = 0 then ['Z']
  else (if offMinutes < 0 then '-' else '+') ::
    (pad2 (offMinutes.natAbs / 60) ++ ':' :: pad2 (offMinutes.natAbs % 60))

/-- The character list of the RFC3339Nano rendering of a time. -/
def formatChars (t : Time) : List Char :=
  pad4 t.year ++ '-' :: (pad2 t.month ++ '-' :: (pad2 t.day ++ 'T' ::
    (pad2 t.hour ++ ':' :: (pad2 t.minute ++ ':' ::
      (pad2 t.second ++ (fracChars t.nanos ++ offsetChars t.offMinutes))))))

/-- Model of `t.Format(time.RFC3339Nano)` from `Event.Row` in
src/stopwatch.go. -/
def formatRFC3339Nano (t : Time) : String := String.mk (formatChars t)

/-- `Event` from src/stopwatch.go: sequence number, timestamp, and a
description string.  The Go field type of `Seq` is `int`; the program only
ever stores the values of a counter that starts at 0 and is incremented, so
it is modelled as `Nat` (rendered in decimal by `fmt.Sprintf` with verb d,
which is `toString` on `Nat` for these values). -/
structure Event where
  Seq : Nat
  Timestamp : Time
  What : String
deriving DecidableEq, Repr

/-- `Event.Row` from src/stopwatch.go: the three CSV fields of an event, in
declaration order — sequence, timestamp, description. -/
def Event.Row (e : Event) : List String :=
  [toString e.Seq, formatRFC3339Nano e.Timestamp, e.What]

/-- `GetEventColumnNames` from src/stopwatch.go.  The Go code walks the
struct fields of `Event` by reflection, in declaration order, and collects
each field's csv tag; on the `Event` declaration those tags are seq, ts,
what. -/
def GetEventColumnNames : List String := ["seq", "ts", "what"]

/-- `EventsToRecords` from src/stopwatch.go: the header record followed by
one record per event, in input order. -/
def EventsToRecords (events : List Event) : List (List String) :=
  GetEventColumnNames :: events.map Event.Row

/-- The characters Go `unicode.IsSpace` accepts (the White_Space property). -/
def goIsSpace (c : Char) : Bool :=
  c ∈ ['\t', '\n', '\u000B', '\u000C', '\r', ' ', '\u0085', '\u00A0',
    '\u1680', '\u2000', '\u2001', '\u2002', '\u2003', '\u2004', '\u2005',
    '\u2006', '\u2007', '\u2008', '\u2009', '\u200A', '\u2028', '\u2029',
    '\u202F', '\u205F', '\u3000']

/-- `fieldNeedsQuotes` of Go `encoding/csv` with the default comma
separator: a non-empty field is quoted when it is the PostgreSQL
end-of-data marker, contains a comma, a double quote, or a CR or LF, or
starts with white space. -/
def fieldNeedsQuotes (field : String) : Bool :=
  if field = "" then false
  else if field = "\\." then true
  else if field.data.any (fun c => c = ',' || c = '"' || c = '\r' || c = '\n') then true
  else goIsSpace (field.data.headD 'a')

/-- Quoted-field body: each double quote is doubled; with `UseCRLF = false`
CR and LF pass through unchanged. -/
def escapeQuotes (s : String) : String :=
  String.mk (s.data.flatMap (fun c => if c = '"' then ['"', '"'] else [c]))

/-- One CSV field as written by the Go csv writer. -/
def encodeField (f : String) : String :=
  if fieldNeedsQuotes f then "\"" ++ escapeQuotes f ++ "\"" else f

/-- The comma between consecutive fields of a record. -/
def commaJoin : List String → String
  | [] => ""
  | [f] => f
  | f :: rest => f ++ "," ++ commaJoin rest

/-- One CSV record as written by the Go csv writer with `UseCRLF = false`:
fields joined by commas, terminated by a newline. -/
def encodeRecord (r : List String) : String :=
  commaJoin (r.map encodeField) ++ "\n"

/-- `csv.Writer.WriteAll`: every record in order. -/
def csvWriteAll : List (List String) → String
  | [] => ""
  | r :: rest => encodeRecord r ++ csvWriteAll rest

/-- `MarshallEventsCSV` from src/stopwatch.go over a string-modelled
`io.Writer`: `out` is the bytes already written to the sink, the result is
the sink after the call.  A non-empty comment is written first, then all
records.  This is the success-path model: writes to the sink cannot fail,
so the error returns of `fmt.Fprintf` and `WriteAll` never fire; the
fallible-sink refinement below (`MarshallEventsCSVF`) keeps them. -/
def MarshallEventsCSV (out : String) (events : List Event) (comment : String) : String :=
  let records := EventsToRecords events
  let out1 := if comment ≠ "" then out ++ "# " ++ comment ++ "\n" else out
  out1 ++ csvWriteAll records

/-- Model of the environment `DumpCSV` and the reporting tail of `main`
act on: the file-system contents, which paths can be created and written
(`os.Create` succeeds exactly on writable paths in this model), and the
bytes written to standard output so far. -/
structure World where
  fs : String → Option String
  writable : String → Bool
  stdout : String

/-- `os.Create` followed by writing `content`: the named file now holds
exactly `content` (a pre-existing file is truncated first), every other
path is untouched. -/
def writeFile (w : World) (name content : String) : World :=
  { w with fs := fun n => if n = name then some content else w.fs n }

/-- `DumpCSV` from src/stopwatch.go.  The file names empty and "-" are
interpreted as stdout; otherwise the file is created (truncated when it
pre-exists) and the marshalled CSV becomes its full content.  A failing
`os.Create` is reported as a wrapped error and leaves the world
unchanged.  This model makes writes to a created file succeed; `DumpCSVF`
below refines it with write failures after a successful create. -/
def DumpCSV (w : World) (outFile : String) (events : List Event) (comment : String) :
    Except String World :=
  if outFile = "-" ∨ outFile = "" then
    .ok { w with stdout := MarshallEventsCSV w.stdout events comment }
  else if w.writable outFile then
    .ok (writeFile w outFile (MarshallEventsCSV "" events comment))
  else
    .error "could not create file"

/-- The reporting tail of `main` in src/stopwatch.go: call `DumpCSV` with
the collected events, the -o flag value and the -c flag value; on error,
print a diagnostic with context to stderr and exit with code 1, otherwise
exit with code 0.  Result: (world after the run, exit code, optional stderr
diagnostic). -/
def mainReport (w : World) (outFile comment : String) (events : List Event) :
    World × Nat × Option String :=
  match DumpCSV w outFile events comment with
  | .error e => (w, 1, some ("ERROR: problem writing CSV: " ++ e))
  | .ok w1 => (w1, 0, none)

/-- A fallible byte sink — an `os.File` after a successful `os.Create`:
the bytes the device has accepted so far and its remaining byte budget.  A
write that exceeds the budget fails (e.g. a full disk) and contributes
nothing; earlier successful writes remain on the device. -/
structure FWriter where
  written : String
  cap : Nat

/-- One write call on a fallible sink. -/
def fwrite (s : FWriter) (chunk : String) : Except String FWriter :=
  if chunk.length ≤ s.cap then
    .ok ⟨s.written ++ chunk, s.cap - chunk.length⟩
  else
    .error "write error"

/-- `csv.Writer.WriteAll` on a fallible sink: the records in order until
one fails, returning the sink (holding what was accepted) and the error if
any.  Device writes are modelled with per-record granularity. -/
def writeAllF : FWriter → List (List String) → FWriter × Option String
  | s, [] => (s, none)
  | s, r :: rest =>
    match fwrite s (encodeRecord r) with
    | .error e => (s, some e)
    | .ok s1 => writeAllF s1 rest

/-- `MarshallEventsCSV` from src/stopwatch.go over a fallible sink, keeping
the error returns of `fmt.Fprintf` (the comment line) and `WriteAll` that
the string-sink model collapses: the first failing write aborts with its
error, and the bytes accepted before it stay on the sink. -/
def MarshallEventsCSVF (out : FWriter) (events : List Event) (comment : String) :
    FWriter × Option String :=
  let records := EventsToRecords events
  if comment ≠ "" then
    match fwrite out ("# " ++ comment ++ "\n") with
    | .error e => (out, some e)
    | .ok out1 => writeAllF out1 records
  else
    writeAllF out records

/-- The environment of `DumpCSV` with fallible file writes: file contents,
which paths `os.Create` can create, the device byte budget available for
writing a freshly created file on each path, and stdout. -/
structure WorldF where
  fs : String → Option String
  creatable : String → Bool
  cap : String → Nat
  stdout : String

/-- `DumpCSV` from src/stopwatch.go over `WorldF`: as `DumpCSV`, except
that `os.Create` truncates the named file before any write is attempted
and a later write can fail; the file then keeps exactly the bytes the
device accepted, so a failed write leaves a partial (possibly empty)
file.  Returns the world after the call and the error, if any. -/
def DumpCSVF (w : WorldF) (outFile : String) (events : List Event) (comment : String) :
    WorldF × Option String :=
  if outFile = "-" ∨ outFile = "" then
    ({ w with stdout := MarshallEventsCSV w.stdout events comment }, none)
  else if w.creatable outFile then
    let result := MarshallEventsCSVF ⟨"", w.cap outFile⟩ events comment
    ({ w with fs := fun n => if n = outFile then some result.1.written else w.fs n },
      result.2)
  else
    (w, some "could not create file")

/-- The reporting tail of `main` over the fallible model: on any error from
`DumpCSVF`, print one diagnostic with context and exit 1, else exit 0. -/
def mainReportF (w : WorldF) (outFile comment : String) (events : List Event) :
    WorldF × Nat × Option String :=
  match DumpCSVF w outFile events comment with
  | (w1, some e) => (w1, 1, some ("ERROR: problem writing CSV: " ++ e))
  | (w1, none) => (w1, 0, none)

/-- One resolution of the `select` statement in `collect`: either the tick
channel fired or the context was cancelled (termination). -/
inductive Sig where
  | tick : Sig
  | done : Sig
deriving DecidableEq, Repr

/-- The wait-loop of `collect`: consume schedule entries until the first
done, appending a tick event (with the current counter value and clock
reading) for each tick.  Returns the appended events and the counter value
after the loop.  Entries after the first done are never looked at — the
loop has exited. -/
def collectLoop (clock : Nat → Time) : Nat → List Sig → List Event × Nat
  | ctr, [] => ([], ctr)
  | ctr, Sig.done :: _ => ([], ctr)
  | ctr, Sig.tick :: rest =>
    let stepped := collectLoop clock (ctr + 1) rest
    (⟨ctr, clock ctr, "tick"⟩ :: stepped.1, stepped.2)

/-- `collect` from src/stopwatch.go on a schedule of select outcomes: an
enter event first (counter 0), then the wait-loop, then an exit event with
the counter value after the loop.  `clock` maps the counter value at an
append to the `time.Now()` value read there; the stderr progress messages
of the Go code are not part of the data contract and are not modelled. -/
def collect (clock : Nat → Time) (sched : List Sig) : List Event :=
  let looped := collectLoop clock 1 sched
  ⟨0, clock 0, "enter"⟩ :: looped.1 ++ [⟨looped.2, clock looped.2, "exit"⟩]

/-- The number of tick notifications the collector accepts: those delivered
before the first termination signal. -/
def ticksBeforeDone : List Sig → Nat
  | [] => 0
  | Sig.done :: _ => 0
  | Sig.tick :: rest => ticksBeforeDone rest + 1

/-- Chronological (instant) order on times that carry the same UTC offset:
lexicographic on the broken-down fields.  For two Go `time.Time` values
with equal zone offsets this is exactly `t1.Before(t2)`. -/
def chronoLT (a b : Time) : Prop :=
  a.year < b.year ∨ (a.year = b.year ∧
    (a.month < b.month ∨ (a.month = b.month ∧
      (a.day < b.day ∨ (a.day = b.day ∧
        (a.hour < b.hour ∨ (a.hour = b.hour ∧
          (a.minute < b.minute ∨ (a.minute = b.minute ∧
            (a.second < b.second ∨ (a.second = b.second ∧
              a.nanos < b.nanos)))))))))))

instance (a b : Time) : Decidable (chronoLT a b) := by
  unfold chronoLT
  infer_instance

/-- Field-width bounds under which the zero-padded renderings in
`formatChars` are faithful to Go (four year digits, two digits each for
month, day, hour, minute, second); every real civil time satisfies them. -/
def widthOK (t : Time) : Prop :=
  t.year ≤ 9999 ∧ t.month ≤ 99 ∧ t.day ≤ 99 ∧ t.hour ≤ 99 ∧
    t.minute ≤ 99 ∧ t.second ≤ 99

instance (t : Time) : Decidable (widthOK t) := by
  unfold widthOK
  infer_instance

/-- A concrete clock for evaluating the collector on concrete schedules:
the n-th append happens n seconds into 2022. -/
def clk0 : Nat → Time := fun n => ⟨2022, 1, 1, 0, 0, n, 0, 0⟩

/-- A concrete event for evaluating the record functions. -/
def sampleEvent : Event := ⟨0, ⟨2022, 1, 1, 0, 0, 0, 0, 0⟩, "enter"⟩

/-- A fallible world with no files in which no path can be created. -/
def unwritableWorldF : WorldF :=
  { fs := fun _ => none, creatable := fun _ => false, cap := fun _ => 1000, stdout := "" }

/-- A fallible world with a full disk: out.csv pre-exists with stale
content and can be created (truncated), but the device accepts no bytes. -/
def fullDiskWorld : WorldF :=
  { fs := fun n => if n = "out.csv" then some "old content" else none,
    creatable := fun _ => true, cap := fun _ => 0, stdout := "" }

/-- A world in which every path can be created and written and out.csv
pre-exists with stale content. -/
def writableWorld : World :=
  { fs := fun n => if n = "out.csv" then some "old content" else none,
    writable := fun _ => true, stdout := "" }

/-! ## Properties of the collector -/

theorem collectLoop_snd (clock : Nat → Time) (c : Nat) (s : List Sig) :
    (collectLoop clock c s).2 = c + ticksBeforeDone s := by
  induction s generalizing c with
  | nil => simp [collectLoop, ticksBeforeDone]
  | cons a s ih =>
    cases a with
    | done => simp [collectLoop, ticksBeforeDone]
    | tick => simp [collectLoop, ticksBeforeDone, ih]; omega

theorem collectLoop_fst_map_seq (clock : Nat → Time) (c : Nat) (s : List Sig) :
    ((collectLoop clock c s).1).map Event.Seq = List.range' c (ticksBeforeDone s) := by
  induction s generalizing c with
  | nil => simp [collectLoop, ticksBeforeDone]
  | cons a s ih =>
    cases a with
    | done => simp [collectLoop, ticksBeforeDone]
    | tick => simp [collectLoop, ticksBeforeDone, ih, List.range'_succ]

theorem collectLoop_fst_map_what (clock : Nat → Time) (c : Nat) (s : List Sig) :
    ((collectLoop clock c s).1).map Event.What =
      List.replicate (ticksBeforeDone s) "tick" := by
  induction s generalizing c with
  | nil => simp [collectLoop, ticksBeforeDone]
  | cons a s ih =>
    cases a with
    | done => simp [collectLoop, ticksBeforeDone]
    | tick => simp [collectLoop, ticksBeforeDone, ih, List.replicate_succ]

theorem collect_map_seq (clock : Nat → Time) (sched : List Sig) :
    (collect clock sched).map Event.Seq = List.range (ticksBeforeDone sched + 2) := by
  have h1 := collectLoop_fst_map_seq clock 1 sched
  have h2 := collectLoop_snd clock 1 sched
  simp only [collect, List.map_append, List.map_cons, List.map_nil, h1, h2]
  rw [List.range_eq_range', List.range'_succ, List.range'_1_concat]
  simp [Nat.add_comm]

/-- C1: in every session that terminates after accepting N ticks, the
collected log has exactly N+2 events and its sequence numbers are exactly
0, 1, ..., N+1 in order — contiguous, zero-based, strictly increasing by
one, no gaps or repeats. -/
theorem collect_log_shape (clock : Nat → Time) (sched : List Sig)
    (_hterm : Sig.done ∈ sched) :
    (collect clock sched).length = ticksBeforeDone sched + 2 ∧
    (collect clock sched).map Event.Seq = List.range (ticksBeforeDone sched + 2) := by
  refine ⟨?_, collect_map_seq clock sched⟩
  have := congrArg List.length (collect_map_seq clock sched)
  simpa using this

/-- Closed instance of C1: a session with one accepted tick yields a
three-event log with sequence numbers 0, 1, 2. -/
theorem collect_log_shape_witness :
    (collect clk0 [Sig.tick, Sig.done]).length = ticksBeforeDone [Sig.tick, Sig.done] + 2 ∧
    (collect clk0 [Sig.tick, Sig.done]).map Event.Seq =
      List.range (ticksBeforeDone [Sig.tick, Sig.done] + 2) :=
  collect_log_shape clk0 [Sig.tick, Sig.done] (by decide)

/-- C2 counterexample: the Go code labels the first event enter (and the
last exit), not start — the label vocabulary of the claim does not occur. -/
theorem collect_first_label_not_start :
    (collect clk0 [Sig.done]).map Event.What = ["enter", "exit"] ∧
    "enter" ∉ (["start", "tick", "end"] : List String) ∧
    "exit" ∉ (["start", "tick", "end"] : List String) := by
  refine ⟨?_, by decide, by decide⟩
  simp [collect, collectLoop, clk0]

/-- C2 as amended: every event label of a terminated session is drawn from
the fixed vocabulary enter, tick, exit; the first event is labeled enter,
every operator-notification event is labeled tick, and the last event is
labeled exit. -/
theorem collect_labels (clock : Nat → Time) (sched : List Sig)
    (_hterm : Sig.done ∈ sched) :
    (collect clock sched).map Event.What =
      "enter" :: (List.replicate (ticksBeforeDone sched) "tick" ++ ["exit"]) ∧
    ∀ e, e ∈ collect clock sched → e.What ∈ (["enter", "tick", "exit"] : List String) := by
  have h1 := collectLoop_fst_map_what clock 1 sched
  constructor
  · simp only [collect, List.map_append, List.map_cons, List.map_nil, h1, List.cons_append]
  · intro e he
    have : e.What ∈ (collect clock sched).map Event.What := List.mem_map_of_mem _ he
    rw [show (collect clock sched).map Event.What =
      "enter" :: (List.replicate (ticksBeforeDone sched) "tick" ++ ["exit"]) from by
        simp only [collect, List.map_append, List.map_cons, List.map_nil, h1,
          List.cons_append]] at this
    simp only [List.mem_cons, List.mem_append, List.eq_of_mem_replicate] at this ⊢
    rcases this with h | h | h
    · exact Or.inl h
    · exact Or.inr (Or.inl (List.eq_of_mem_replicate h))
    · simp at h
      exact Or.inr (Or.inr (Or.inl h))

/-- Closed instance of C2 as amended: labels of a one-tick session, and the
label of a concrete log member is in the vocabulary. -/
theorem collect_labels_witness :
    (collect clk0 [Sig.tick, Sig.done]).map Event.What =
      "enter" :: (List.replicate (ticksBeforeDone [Sig.tick, Sig.done]) "tick" ++ ["exit"]) ∧
    (⟨0, clk0 0, "enter"⟩ : Event).What ∈ (["enter", "tick", "exit"] : List String) :=
  ⟨(collect_labels clk0 [Sig.tick, Sig.done] (by decide)).1,
   (collect_labels clk0 [Sig.tick, Sig.done] (by decide)).2 ⟨0, clk0 0, "enter"⟩ (by decide)⟩

theorem collectLoop_done_absorb (clock : Nat → Time) (pre post : List Sig) :
    ∀ c, collectLoop clock c (pre ++ Sig.done :: post) =
      collectLoop clock c (pre ++ [Sig.done]) := by
  induction pre with
  | nil => intro c; rfl
  | cons a pre ih =>
    intro c
    cases a with
    | done => rfl
    | tick => simp [collectLoop, ih]

/-- C7: delivering the termination signal again — in particular after the
wait-loop has already exited — is a no-op: the collected log is the same as
if termination had been delivered exactly once, and the collector has no
error outcome at all (its result type carries no error case). -/
theorem collect_termination_idempotent (clock : Nat → Time) (pre post : List Sig) :
    collect clock (pre ++ Sig.done :: post) = collect clock (pre ++ [Sig.done]) := by
  simp only [collect, collectLoop_done_absorb clock pre post 1]

/-! ## Properties of the CSV rendering -/

theorem encodeRecord_header : encodeRecord ["seq", "ts", "what"] = "seq,ts,what\n" := by
  decide

theorem csvWriteAll_events (events : List Event) :
    csvWriteAll (EventsToRecords events) =
      "seq,ts,what\n" ++ csvWriteAll (events.map Event.Row) := by
  simp [csvWriteAll, EventsToRecords, GetEventColumnNames, encodeRecord_header]

/-- C4: the rendered output begins with the comment marker, a space, the
comment and a newline — placed before the header row — exactly when the
comment is non-empty; with an empty comment the output is the bare CSV
records. -/
theorem marshall_comment_iff (events : List Event) (comment : String) :
    ((∃ rest, MarshallEventsCSV "" events comment = "# " ++ rest) ↔ comment ≠ "") ∧
    (comment ≠ "" → MarshallEventsCSV "" events comment =
      "# " ++ (comment ++ ("\n" ++ csvWriteAll (EventsToRecords events)))) ∧
    (comment = "" → MarshallEventsCSV "" events comment = csvWriteAll (EventsToRecords events)) := by
  by_cases hc : comment = ""
  · subst hc
    refine ⟨?_, fun h => absurd rfl h, fun _ => by simp [MarshallEventsCSV]⟩
    simp only [ne_eq, not_true_eq_false, iff_false, not_exists]
    intro rest hr
    rw [show MarshallEventsCSV "" events "" = csvWriteAll (EventsToRecords events) from by
          simp [MarshallEventsCSV],
        csvWriteAll_events] at hr
    have hdata := congrArg String.data hr
    rw [String.data_append, String.data_append,
        show ("seq,ts,what\n").data = 's' :: ("eq,ts,what\n").data from by decide,
        show ("# ").data = '#' :: (" ").data from by decide] at hdata
    simp only [List.cons_append, List.cons.injEq] at hdata
    exact absurd hdata.1 (by decide)
  · have heq : MarshallEventsCSV "" events comment =
        "# " ++ (comment ++ ("\n" ++ csvWriteAll (EventsToRecords events))) := by
      simp [MarshallEventsCSV, hc, String.append_assoc]
    exact ⟨⟨fun _ => hc, fun _ => ⟨_, heq⟩⟩, fun _ => heq, fun h => absurd h hc⟩

/-- Closed instance of C4: with a non-empty comment the comment line leads;
with an empty comment the output is the bare records. -/
theorem marshall_comment_iff_witness :
    MarshallEventsCSV "" [] "trial A" =
      "# " ++ ("trial A" ++ ("\n" ++ csvWriteAll (EventsToRecords []))) ∧
    MarshallEventsCSV "" [] "" = csvWriteAll (EventsToRecords []) :=
  ⟨(marshall_comment_iff [] "trial A").2.1 (by decide),
   (marshall_comment_iff [] "").2.2 rfl⟩

/-- C5: rendering emits the header record first, then exactly one record
per event in log order, and the column order of the header and of every
row is the fixed order sequence, timestamp, label. -/
theorem render_order_preserving (events : List Event) :
    EventsToRecords events = GetEventColumnNames :: events.map Event.Row ∧
    GetEventColumnNames = ["seq", "ts", "what"] ∧
    (∀ e : Event, Event.Row e = [toString e.Seq, formatRFC3339Nano e.Timestamp, e.What]) ∧
    csvWriteAll (EventsToRecords events) =
      encodeRecord ["seq", "ts", "what"] ++ csvWriteAll (events.map Event.Row) := by
  refine ⟨rfl, rfl, fun e => rfl, ?_⟩
  simp [csvWriteAll, EventsToRecords, GetEventColumnNames]

/-- C8: rendering is a pure function of the log and the comment, and what
it appends to the sink does not depend on what was already written: writing
the same log and comment twice appends byte-identical output both times. -/
theorem render_byte_deterministic (out : String) (events : List Event) (comment : String) :
    MarshallEventsCSV out events comment = out ++ MarshallEventsCSV "" events comment ∧
    MarshallEventsCSV (MarshallEventsCSV out events comment) events comment =
      out ++ (MarshallEventsCSV "" events comment ++ MarshallEventsCSV "" events comment) := by
  have key : ∀ s : String, MarshallEventsCSV s events comment =
      s ++ MarshallEventsCSV "" events comment := by
    intro s
    by_cases hc : comment = "" <;> simp [MarshallEventsCSV, hc, String.append_assoc]
  refine ⟨key out, ?_⟩
  rw [key out, key (out ++ MarshallEventsCSV "" events comment), String.append_assoc]

/-- C10: the record table is rectangular — one header plus one row per
event, and every record has exactly three fields. -/
theorem records_rectangular (events : List Event) :
    (EventsToRecords events).length = events.length + 1 ∧
    ∀ r, r ∈ EventsToRecords events → r.length = 3 := by
  constructor
  · simp [EventsToRecords]
  · intro r hr
    simp only [EventsToRecords, GetEventColumnNames, List.mem_cons, List.mem_map] at hr
    rcases hr with rfl | ⟨e, _, rfl⟩
    · rfl
    · rfl

/-- Closed instance of C10 on a one-event log: two records, each of the
header and the event row three fields wide. -/
theorem records_rectangular_witness :
    (EventsToRecords [sampleEvent]).length = [sampleEvent].length + 1 ∧
    GetEventColumnNames.length = 3 ∧ (Event.Row sampleEvent).length = 3 :=
  ⟨(records_rectangular [sampleEvent]).1,
   (records_rectangular [sampleEvent]).2 GetEventColumnNames (by simp [EventsToRecords]),
   (records_rectangular [sampleEvent]).2 (Event.Row sampleEvent) (by simp [EventsToRecords])⟩

/-! ## Properties of the output destination and error propagation -/

/-- C3 counterexample: on a destination that can be created but not
written (a full disk), `DumpCSV` does return an error and the run fails,
but `os.Create` has already truncated the pre-existing file — the run
leaves a partial (here empty) output file where old content stood, so it
is false that no partial output file is produced. -/
theorem dump_partial_file_on_write_failure :
    (DumpCSVF fullDiskWorld "out.csv" [] "").2 = some "write error" ∧
    (DumpCSVF fullDiskWorld "out.csv" [] "").1.fs "out.csv" = some "" ∧
    fullDiskWorld.fs "out.csv" = some "old content" ∧
    mainReportF fullDiskWorld "out.csv" "" [] =
      ((DumpCSVF fullDiskWorld "out.csv" [] "").1, 1,
        some ("ERROR: problem writing CSV: " ++ "write error")) := by
  refine ⟨by decide, by decide, by decide, ?_⟩
  rfl

/-- C3 as amended: a destination that cannot be created or written always
surfaces an error from `DumpCSV` (never silently swallowed) and makes the
run report one diagnostic with context and exit non-zero.  When creation
itself fails, the file system is unchanged and no partial file is
produced; after a successful creation the named file holds exactly the
bytes the device accepted, so a write failure leaves a truncated or
partial file behind. -/
theorem dump_error_propagates_amended (w : WorldF) (outFile : String)
    (events : List Event) (comment : String)
    (h1 : outFile ≠ "") (h2 : outFile ≠ "-") :
    (w.creatable outFile = false →
      DumpCSVF w outFile events comment = (w, some "could not create file") ∧
      mainReportF w outFile comment events =
        (w, 1, some ("ERROR: problem writing CSV: " ++ "could not create file"))) ∧
    (∀ e, (DumpCSVF w outFile events comment).2 = some e →
      mainReportF w outFile comment events =
        ((DumpCSVF w outFile events comment).1, 1,
          some ("ERROR: problem writing CSV: " ++ e))) ∧
    (w.creatable outFile = true →
      (DumpCSVF w outFile events comment).1.fs outFile =
        some (MarshallEventsCSVF ⟨"", w.cap outFile⟩ events comment).1.written) := by
  refine ⟨?_, ?_, ?_⟩
  · intro h3
    have hd : DumpCSVF w outFile events comment = (w, some "could not create file") := by
      unfold DumpCSVF
      rw [if_neg (by simp [h1, h2]), if_neg (by simp [h3])]
    refine ⟨hd, ?_⟩
    unfold mainReportF
    rw [hd]
  · intro e he
    rcases hD : DumpCSVF w outFile events comment with ⟨w1, r⟩
    rw [hD] at he
    simp only at he
    subst he
    unfold mainReportF
    rw [hD]
  · intro h3
    unfold DumpCSVF
    rw [if_neg (by simp [h1, h2]), if_pos h3]
    simp

/-- Closed instance of the amended C3: a creation failure exits 1 with a
diagnostic and an unchanged world; a full-disk write failure also exits 1
with a diagnostic and the created file holds the accepted bytes. -/
theorem dump_error_amended_witness :
    (DumpCSVF unwritableWorldF "out.csv" [] "" =
        (unwritableWorldF, some "could not create file") ∧
      mainReportF unwritableWorldF "out.csv" "" [] =
        (unwritableWorldF, 1, some ("ERROR: problem writing CSV: " ++ "could not create file"))) ∧
    mainReportF fullDiskWorld "out.csv" "" [] =
      ((DumpCSVF fullDiskWorld "out.csv" [] "").1, 1,
        some ("ERROR: problem writing CSV: " ++ "write error")) ∧
    (DumpCSVF fullDiskWorld "out.csv" [] "").1.fs "out.csv" =
      some (MarshallEventsCSVF ⟨"", fullDiskWorld.cap "out.csv"⟩ [] "").1.written :=
  ⟨(dump_error_propagates_amended unwritableWorldF "out.csv" [] ""
      (by decide) (by decide)).1 rfl,
   (dump_error_propagates_amended fullDiskWorld "out.csv" [] ""
      (by decide) (by decide)).2.1 "write error" (by decide),
   (dump_error_propagates_amended fullDiskWorld "out.csv" [] ""
      (by decide) (by decide)).2.2 rfl⟩

/-- C6: the empty string (the flag default) and "-" select standard output
and leave the file system alone; any other path selects the named file,
whose content after the call is exactly the rendered CSV — a pre-existing
file is truncated — while every other path is untouched. -/
theorem dump_destination_select (w : World) (outFile : String) (events : List Event)
    (comment : String) :
    ((outFile = "" ∨ outFile = "-") →
      DumpCSV w outFile events comment =
        .ok { w with stdout := MarshallEventsCSV w.stdout events comment }) ∧
    (outFile ≠ "" → outFile ≠ "-" → w.writable outFile = true →
      DumpCSV w outFile events comment =
        .ok (writeFile w outFile (MarshallEventsCSV "" events comment)) ∧
      (writeFile w outFile (MarshallEventsCSV "" events comment)).fs outFile =
        some (MarshallEventsCSV "" events comment) ∧
      ∀ n, n ≠ outFile →
        (writeFile w outFile (MarshallEventsCSV "" events comment)).fs n = w.fs n) := by
  constructor
  · intro h
    unfold DumpCSV
    rw [if_pos (by tauto)]
  · intro h1 h2 h3
    refine ⟨?_, by simp [writeFile], fun n hn => by simp [writeFile, hn]⟩
    unfold DumpCSV
    rw [if_neg (by simp [h1, h2]), if_pos h3]

/-- Closed instance of C6: "-" goes to stdout; out.csv (which pre-exists
with stale content) ends up holding exactly the rendered CSV while another
path is untouched. -/
theorem dump_destination_witness :
    DumpCSV writableWorld "-" [] "" =
      .ok { writableWorld with stdout := MarshallEventsCSV writableWorld.stdout [] "" } ∧
    DumpCSV writableWorld "out.csv" [] "" =
      .ok (writeFile writableWorld "out.csv" (MarshallEventsCSV "" [] "")) ∧
    (writeFile writableWorld "out.csv" (MarshallEventsCSV "" [] "")).fs "out.csv" =
      some (MarshallEventsCSV "" [] "") ∧
    (writeFile writableWorld "out.csv" (MarshallEventsCSV "" [] "")).fs "other.csv" =
      writableWorld.fs "other.csv" :=
  ⟨(dump_destination_select writableWorld "-" [] "").1 (Or.inr rfl),
   ((dump_destination_select writableWorld "out.csv" [] "").2 (by decide) (by decide) rfl).1,
   ((dump_destination_select writableWorld "out.csv" [] "").2 (by decide) (by decide) rfl).2.1,
   ((dump_destination_select writableWorld "out.csv" [] "").2 (by decide) (by decide) rfl).2.2
     "other.csv" (by decide)⟩

/-! ## Lexicographic properties of the timestamp rendering -/

theorem string_lt_iff_lex (s t : String) :
    s < t ↔ List.Lex (· < ·) s.data t.data :=
  String.lt_iff_toList_lt

theorem lex_cons_iff (a b : Char) (l m : List Char) :
    List.Lex (· < ·) (a :: l) (b :: m) ↔ a < b ∨ (a = b ∧ List.Lex (· < ·) l m) := by
  constructor
  · intro h
    cases h with
    | cons h => exact Or.inr ⟨rfl, h⟩
    | rel h => exact Or.inl h
  · intro h
    rcases h with h | ⟨rfl, h⟩
    · exact List.Lex.rel h
    · exact List.Lex.cons h

theorem lex_irrefl (l : List Char) : ¬ List.Lex (· < ·) l l := by
  induction l with
  | nil => exact List.Lex.not_nil_right _ _
  | cons a l ih =>
    intro h
    rw [lex_cons_iff] at h
    rcases h with h | ⟨_, h⟩
    · exact lt_irrefl a h
    · exact ih h

theorem lex_append_iff (as bs cs ds : List Char) (h : as.length = bs.length) :
    List.Lex (· < ·) (as ++ cs) (bs ++ ds) ↔
      List.Lex (· < ·) as bs ∨ (as = bs ∧ List.Lex (· < ·) cs ds) := by
  induction as generalizing bs with
  | nil =>
    cases bs with
    | nil =>
      constructor
      · intro hcd
        exact Or.inr ⟨rfl, hcd⟩
      · intro hor
        rcases hor with hl | ⟨_, hcd⟩
        · exact absurd hl (List.Lex.not_nil_right _ _)
        · exact hcd
    | cons b bs => simp at h
  | cons a as ih =>
    cases bs with
    | nil => simp at h
    | cons b bs =>
      simp only [List.cons_append, lex_cons_iff, List.cons.injEq]
      rw [ih bs (by simpa using h)]
      tauto

theorem digitChar_lt_iff : ∀ a < 10, ∀ b < 10,
    (digitChar a < digitChar b ↔ a < b) := by
  decide

theorem digitChar_inj : ∀ a < 10, ∀ b < 10,
    (digitChar a = digitChar b ↔ a = b) := by
  decide

theorem pad2_lt_iff (a b : Nat) (ha : a < 100) (hb : b < 100) :
    (List.Lex (· < ·) (pad2 a) (pad2 b) ↔ a < b) := by
  unfold pad2
  rw [lex_cons_iff, List.Lex.singleton_iff,
    digitChar_lt_iff _ (Nat.mod_lt _ (by norm_num)) _ (Nat.mod_lt _ (by norm_num)),
    digitChar_inj _ (Nat.mod_lt _ (by norm_num)) _ (Nat.mod_lt _ (by norm_num)),
    digitChar_lt_iff _ (Nat.mod_lt _ (by norm_num)) _ (Nat.mod_lt _ (by norm_num))]
  omega

theorem pad2_inj (a b : Nat) (ha : a < 100) (hb : b < 100) :
    (pad2 a = pad2 b ↔ a = b) := by
  unfold pad2
  simp only [List.cons.injEq, and_true]
  rw [digitChar_inj _ (Nat.mod_lt _ (by norm_num)) _ (Nat.mod_lt _ (by norm_num)),
    digitChar_inj _ (Nat.mod_lt _ (by norm_num)) _ (Nat.mod_lt _ (by norm_num))]
  omega

theorem pad4_eq_append (n : Nat) : pad4 n = pad2 (n / 100) ++ pad2 (n % 100) := by
  have h1 : n / 1000 % 10 = n / 100 / 10 % 10 := by omega
  have h2 : n / 10 % 10 = n % 100 / 10 % 10 := by omega
  have h3 : n % 10 = n % 100 % 10 := by omega
  unfold pad4 pad2
  rw [h1, h2, h3]
  rfl

theorem pad4_lt_iff (a b : Nat) (ha : a < 10000) (hb : b < 10000) :
    (List.Lex (· < ·) (pad4 a) (pad4 b) ↔ a < b) := by
  rw [pad4_eq_append a, pad4_eq_append b,
    lex_append_iff (pad2 (a / 100)) (pad2 (b / 100)) _ _ rfl,
    pad2_lt_iff (a / 100) (b / 100) (by omega) (by omega),
    pad2_inj (a / 100) (b / 100) (by omega) (by omega),
    pad2_lt_iff (a % 100) (b % 100) (by omega) (by omega)]
  omega

theorem pad4_inj (a b : Nat) (ha : a < 10000) (hb : b < 10000) :
    (pad4 a = pad4 b ↔ a = b) := by
  constructor
  · intro h
    rw [pad4_eq_append a, pad4_eq_append b] at h
    obtain ⟨hA, hB⟩ := List.append_inj h rfl
    rw [pad2_inj (a / 100) (b / 100) (by omega) (by omega)] at hA
    rw [pad2_inj (a % 100) (b % 100) (by omega) (by omega)] at hB
    omega
  · intro h
    rw [h]

theorem fracChars_zero : fracChars 0 = [] := rfl

set_option maxHeartbeats 2000000 in
theorem formatChars_lt_iff (t1 t2 : Time) (h1 : widthOK t1) (h2 : widthOK t2)
    (hoff : t1.offMinutes = t2.offMinutes) (hn1 : t1.nanos = 0) (hn2 : t2.nanos = 0) :
    (List.Lex (· < ·) (formatChars t1) (formatChars t2) ↔ chronoLT t1 t2) := by
  obtain ⟨hy1, hmo1, hd1, hh1, hmi1, hs1⟩ := h1
  obtain ⟨hy2, hmo2, hd2, hh2, hmi2, hs2⟩ := h2
  unfold formatChars
  rw [hn1, hn2, fracChars_zero, List.nil_append, hoff]
  rw [lex_append_iff (pad4 t1.year) (pad4 t2.year) _ _ rfl,
    pad4_lt_iff t1.year t2.year (by omega) (by omega),
    pad4_inj t1.year t2.year (by omega) (by omega),
    lex_cons_iff]
  rw [lex_append_iff (pad2 t1.month) (pad2 t2.month) _ _ rfl,
    pad2_lt_iff t1.month t2.month (by omega) (by omega),
    pad2_inj t1.month t2.month (by omega) (by omega),
    lex_cons_iff]
  rw [lex_append_iff (pad2 t1.day) (pad2 t2.day) _ _ rfl,
    pad2_lt_iff t1.day t2.day (by omega) (by omega),
    pad2_inj t1.day t2.day (by omega) (by omega),
    lex_cons_iff]
  rw [lex_append_iff (pad2 t1.hour) (pad2 t2.hour) _ _ rfl,
    pad2_lt_iff t1.hour t2.hour (by omega) (by omega),
    pad2_inj t1.hour t2.hour (by omega) (by omega),
    lex_cons_iff]
  rw [lex_append_iff (pad2 t1.minute) (pad2 t2.minute) _ _ rfl,
    pad2_lt_iff t1.minute t2.minute (by omega) (by omega),
    pad2_inj t1.minute t2.minute (by omega) (by omega),
    lex_cons_iff]
  rw [lex_append_iff (pad2 t1.second) (pad2 t2.second) _ _ rfl,
    pad2_lt_iff t1.second t2.second (by omega) (by omega),
    pad2_inj t1.second t2.second (by omega) (by omega)]
  unfold chronoLT
  rw [hn1, hn2]
  have htail := lex_irrefl (offsetChars t2.offMinutes)
  have hchar : ¬ ('-' : Char) < '-' ∧ ¬ ('T' : Char) < 'T' ∧ ¬ (':' : Char) < ':' := by
    decide
  tauto

/-- C9 as amended: timestamps are rendered in the fixed RFC3339 layout with
nanosecond precision and time-zone offset, and for two timestamps with the
same offset and whole-second precision (zero nanoseconds) the lexicographic
order of the rendered strings agrees with chronological order.  (For
fractional seconds Go trims trailing zeros, which breaks the agreement —
see the counterexample.) -/
theorem formatRFC3339Nano_sortable (t1 t2 : Time) (h1 : widthOK t1) (h2 : widthOK t2)
    (hoff : t1.offMinutes = t2.offMinutes) (hn1 : t1.nanos = 0) (hn2 : t2.nanos = 0) :
    (formatRFC3339Nano t1 < formatRFC3339Nano t2 ↔ chronoLT t1 t2) := by
  rw [string_lt_iff_lex]
  exact formatChars_lt_iff t1 t2 h1 h2 hoff hn1 hn2

/-- Closed instance of the amended C9: one second past midnight sorts after
midnight, lexicographically and chronologically. -/
theorem formatRFC3339Nano_sortable_witness :
    formatRFC3339Nano ⟨2022, 1, 1, 0, 0, 0, 0, 0⟩ <
        formatRFC3339Nano ⟨2022, 1, 1, 0, 0, 1, 0, 0⟩ ↔
      chronoLT ⟨2022, 1, 1, 0, 0, 0, 0, 0⟩ ⟨2022, 1, 1, 0, 0, 1, 0, 0⟩ :=
  formatRFC3339Nano_sortable ⟨2022, 1, 1, 0, 0, 0, 0, 0⟩ ⟨2022, 1, 1, 0, 0, 1, 0, 0⟩
    (by decide) (by decide) rfl rfl rfl

/-- C9 counterexample: midnight renders as 2022-01-01T00:00:00Z and half a
second later renders as 2022-01-01T00:00:00.5Z; the dot sorts before Z, so
the later instant sorts lexicographically strictly before the earlier one —
lexicographic order of the rendered strings disagrees with chronological
order. -/
theorem formatRFC3339Nano_not_sortable :
    chronoLT ⟨2022, 1, 1, 0, 0, 0, 0, 0⟩ ⟨2022, 1, 1, 0, 0, 0, 500000000, 0⟩ ∧
    formatRFC3339Nano ⟨2022, 1, 1, 0, 0, 0, 500000000, 0⟩ <
      formatRFC3339Nano ⟨2022, 1, 1, 0, 0, 0, 0, 0⟩ ∧
    ¬ formatRFC3339Nano ⟨2022, 1, 1, 0, 0, 0, 0, 0⟩ <
      formatRFC3339Nano ⟨2022, 1, 1, 0, 0, 0, 500000000, 0⟩ := by
  refine ⟨by decide, ?_, ?_⟩
  · rw [string_lt_iff_lex]
    decide
  · rw [string_lt_iff_lex]
    decide

end Stopwatch
